import Mathlib

/-
Shallow embedding of the NSE stock analyzer pipeline (src/app.py).

The program is a single linear pandas pipeline: fetch, clean, derive
columns, classify, plot, display.  We embed the computational core over a
scalar type F that mirrors IEEE floating point values as pandas uses them:
NaN (the missing or unknown marker), the two infinities (which pandas
produces on division of a nonzero value by zero), and finite values,
idealized as exact rationals.

The pipeline input is the cleaned record sequence in descending date order
(newest record first).  The data provider itself is an external library
(nselib); the specification fixes the invariant that after the initial
re-sort the sequence is descending by date, and all theorems below are
stated relative to that order.
-/

namespace StockAnalyzer

/-- Exact rational numbers as normalized numerator and denominator
pairs.  Every value built by the smart constructor Q.norm (and by the
arithmetic below) has a positive denominator and coprime fields, so
structural equality coincides with rational equality.  A self-contained
implementation is used so that all arithmetic reduces inside the
kernel. -/
structure Q where
  num : ℤ
  den : ℕ
deriving DecidableEq

namespace Q

/-- Normalize a fraction with nonzero denominator: move the sign to the
numerator and divide out the gcd. -/
def norm (n d : ℤ) : Q :=
  let s : ℤ := if d < 0 then -n else n
  let dd : ℕ := d.natAbs
  let g : ℕ := Nat.gcd s.natAbs dd
  if g = 0 then ⟨0, 0⟩ else ⟨Int.tdiv s (g : ℤ), dd / g⟩

instance (n : ℕ) : OfNat Q n := ⟨⟨(n : ℤ), 1⟩⟩

/-- Embed an integer. -/
def ofInt (n : ℤ) : Q := ⟨n, 1⟩

/-- Negation (keeps the normal form). -/
def neg (a : Q) : Q := ⟨-a.num, a.den⟩

instance : Neg Q := ⟨neg⟩

/-- Addition by cross multiplication and renormalization. -/
def add (a b : Q) : Q :=
  norm (a.num * (b.den : ℤ) + b.num * (a.den : ℤ)) ((a.den : ℤ) * (b.den : ℤ))

instance : Add Q := ⟨add⟩

/-- Subtraction. -/
def sub (a b : Q) : Q := add a (neg b)

instance : Sub Q := ⟨sub⟩

/-- Multiplication. -/
def mul (a b : Q) : Q := norm (a.num * b.num) ((a.den : ℤ) * (b.den : ℤ))

instance : Mul Q := ⟨mul⟩

/-- Division (meaningful when the divisor is nonzero). -/
def div (a b : Q) : Q := norm (a.num * (b.den : ℤ)) ((a.den : ℤ) * b.num)

instance : Div Q := ⟨div⟩

/-- Strict comparison by cross multiplication. -/
def blt (a b : Q) : Bool := decide (a.num * (b.den : ℤ) < b.num * (a.den : ℤ))

/-- Floor to an integer (floor division of numerator by denominator). -/
def floor (a : Q) : ℤ := Int.fdiv a.num (a.den : ℤ)

end Q

/-- Scalar values as pandas float columns hold them: NaN, plus or minus
infinity, or a finite value (idealized as an exact rational). -/
inductive F where
  | nan : F
  | inf : F
  | ninf : F
  | val : Q → F
deriving DecidableEq

namespace F

/-- NaN test (pandas isna on a float column ignores infinities). -/
def isNan : F → Bool
  | nan => true
  | _ => false

/-- IEEE negation. -/
def neg : F → F
  | nan => nan
  | inf => ninf
  | ninf => inf
  | val a => val (-a)

/-- IEEE addition: NaN propagates, opposite infinities give NaN. -/
def add : F → F → F
  | nan, _ => nan
  | _, nan => nan
  | inf, ninf => nan
  | ninf, inf => nan
  | inf, _ => inf
  | _, inf => inf
  | ninf, _ => ninf
  | _, ninf => ninf
  | val a, val b => val (a + b)

/-- IEEE subtraction. -/
def sub (x y : F) : F := add x (neg y)

/-- IEEE multiplication: NaN propagates, infinity times zero is NaN. -/
def mul : F → F → F
  | nan, _ => nan
  | _, nan => nan
  | inf, inf => inf
  | inf, ninf => ninf
  | ninf, inf => ninf
  | ninf, ninf => inf
  | inf, val b => if 0 < b.num then inf else if b.num < 0 then ninf else nan
  | val a, inf => if 0 < a.num then inf else if a.num < 0 then ninf else nan
  | ninf, val b => if 0 < b.num then ninf else if b.num < 0 then inf else nan
  | val a, ninf => if 0 < a.num then ninf else if a.num < 0 then inf else nan
  | val a, val b => val (a * b)

/-- IEEE division: NaN propagates, a nonzero value over zero is a signed
infinity, zero over zero is NaN, a finite value over infinity is zero.
This is exactly what pandas produces for the ratio columns. -/
def div : F → F → F
  | nan, _ => nan
  | _, nan => nan
  | inf, inf => nan
  | inf, ninf => nan
  | ninf, inf => nan
  | ninf, ninf => nan
  | inf, val b => if b.num < 0 then ninf else inf
  | ninf, val b => if b.num < 0 then inf else ninf
  | val _, inf => val 0
  | val _, ninf => val 0
  | val a, val b =>
    if b.num = 0 then (if 0 < a.num then inf else if a.num < 0 then ninf else nan)
    else val (a / b)

/-- IEEE strict comparison: any comparison with NaN is false. -/
def lt : F → F → Bool
  | nan, _ => false
  | _, nan => false
  | ninf, ninf => false
  | ninf, _ => true
  | _, ninf => false
  | inf, inf => false
  | _, inf => true
  | inf, _ => false
  | val a, val b => Q.blt a b

/-- Strict greater-than, as the flipped strict less-than. -/
def gt (x y : F) : Bool := lt y x

/-- Round a rational to the nearest integer, ties to even (the rounding
numpy uses for Series.round). -/
def rhe (q : Q) : ℤ :=
  let f : ℤ := q.floor
  let r : Q := q - Q.ofInt f
  if Q.blt r (1 / 2) then f
  else if Q.blt (1 / 2) r then f + 1
  else if f % 2 = 0 then f else f + 1

/-- Series.round(2): round a finite value to 2 decimal places; NaN and the
infinities are unchanged. -/
def round2 : F → F
  | val q => val (Q.norm (rhe (q * 100)) 100)
  | x => x

/-- Left-to-right sum used by the pandas mean. -/
def sumF : List F → F
  | [] => val 0
  | x :: xs => add x (sumF xs)

/-- The non-NaN entries of a column (mean with skipna=True ignores NaN
only; infinities are kept). -/
def knowns (xs : List F) : List F := xs.filter (fun x => !(isNan x))

/-- Series.mean(skipna=True): mean of the non-NaN entries, NaN when none
exist. -/
def meanSkipna (xs : List F) : F :=
  let k := knowns xs
  if k.length = 0 then nan else div (sumF k) (val (Q.ofInt (k.length : ℤ)))

end F

/-- One cleaned daily record: the columns the pipeline retains after the
column selection and numeric cleaning (lines 34-37 of app.py).  The date
is kept as the raw string, as in the main frame; numeric fields are F
(NaN when the raw cell was a placeholder or unparseable). -/
structure Record where
  symbol : String
  series : String
  date : String
  close : F
  ttq : F
  trades : F
  dly : F
deriving DecidableEq

/-- Fallback record, used only for out-of-range list access; its close is
NaN, matching the NaN a positional shift past the end produces. -/
def defaultRecord : Record :=
  { symbol := "", series := "", date := "", close := F.nan, ttq := F.nan,
    trades := F.nan, dly := F.nan }

/-- ACTION column: TotalTradedQuantity.div(No.ofTrades).round(2). -/
def actionOf (r : Record) : F := F.round2 (F.div r.ttq r.trades)

/-- avgACTION scalar: ACTION.mean(skipna=True).round(2). -/
def avgActionOf (rs : List Record) : F :=
  F.round2 (F.meanSkipna (rs.map actionOf))

/-- avg%DEL scalar: %DlyQttoTradedQty.mean(skipna=True).round(2). -/
def avgDelOf (rs : List Record) : F :=
  F.round2 (F.meanSkipna (rs.map (fun r => r.dly)))

/-- Percent deviation from an average: ((x - avg) / avg * 100).round(2),
the shape of the %chngACT and %chngDEL columns. -/
def chngOf (x avg : F) : F :=
  F.round2 (F.mul (F.div (F.sub x avg) avg) (F.val 100))

/-- Close price at a row position; NaN past the end of the batch. -/
def closeAt (rs : List Record) (i : ℕ) : F := (rs.getD i defaultRecord).close

/-- SHIFT column: ClosePrice.shift(1), a positional shift that moves each
value down one row, so row i holds the close of row i-1 and row 0 holds
NaN. -/
def shiftAt (rs : List Record) (i : ℕ) : F :=
  if i = 0 then F.nan else closeAt rs (i - 1)

/-- %iCHANGE column: ((SHIFT - ClosePrice) / ClosePrice * 100).round(2). -/
def iChangeAt (rs : List Record) (i : ℕ) : F :=
  F.round2 (F.mul (F.div (F.sub (shiftAt rs i) (closeAt rs i)) (closeAt rs i))
    (F.val 100))

/-- %CHANGE column: %iCHANGE.shift(-1).round(2), so row i holds the
%iCHANGE of row i+1 and the last row holds NaN. -/
def changeAt (rs : List Record) (i : ℕ) : F := F.round2 (iChangeAt rs (i + 1))

/-- REMARKS via np.select: four guard conditions checked in order, first
match wins, default NA.  The fourth guard also yields NA. -/
def remarkOf (dly avgD act avgA : F) : String :=
  if F.gt dly avgD && F.lt act avgA then "ACC(G-LZ)"
  else if F.lt dly avgD && F.gt act avgA then "BR(G-HZ)"
  else if F.gt dly avgD && F.gt act avgA then "JACKPOT"
  else if F.lt dly avgD && F.lt act avgA then "NA"
  else "NA"

/-- A three-guard variant of the classifier that drops the fourth,
redundant guard and relies on the NA default alone. -/
def remark3 (dly avgD act avgA : F) : String :=
  if F.gt dly avgD && F.lt act avgA then "ACC(G-LZ)"
  else if F.lt dly avgD && F.gt act avgA then "BR(G-HZ)"
  else if F.gt dly avgD && F.gt act avgA then "JACKPOT"
  else "NA"

/-- A record together with every derived column the pipeline attaches. -/
structure Enriched where
  symbol : String
  series : String
  date : String
  close : F
  ttq : F
  trades : F
  dly : F
  action : F
  avgACTION : F
  avgDEL : F
  chngACT : F
  chngDEL : F
  shift : F
  iCHANGE : F
  change : F
  remarks : String
deriving DecidableEq

/-- Fallback enriched row for out-of-range access. -/
def defaultEnriched : Enriched :=
  { symbol := "", series := "", date := "", close := F.nan, ttq := F.nan,
    trades := F.nan, dly := F.nan, action := F.nan, avgACTION := F.nan,
    avgDEL := F.nan, chngACT := F.nan, chngDEL := F.nan, shift := F.nan,
    iCHANGE := F.nan, change := F.nan, remarks := "NA" }

/-- Row i of the enriched frame, given the two batch-wide scalars. -/
def enrichAt (rs : List Record) (avgA avgD : F) (i : ℕ) : Enriched :=
  let r := rs.getD i defaultRecord
  let act := actionOf r
  { symbol := r.symbol, series := r.series, date := r.date, close := r.close,
    ttq := r.ttq, trades := r.trades, dly := r.dly,
    action := act, avgACTION := avgA, avgDEL := avgD,
    chngACT := chngOf act avgA, chngDEL := chngOf r.dly avgD,
    shift := shiftAt rs i, iCHANGE := iChangeAt rs i, change := changeAt rs i,
    remarks := remarkOf r.dly avgD act avgA }

/-- The whole derived-column pipeline (lines 40-57 of app.py): one
enriched row per cleaned record, in the same order, with the two averages
computed once over the full batch. -/
def enrich (rs : List Record) : List Enriched :=
  (List.range rs.length).map (enrichAt rs (avgActionOf rs) (avgDelOf rs))

/-- Split a character list at dash characters. -/
def splitOnDash : List Char → List (List Char)
  | [] => [[]]
  | c :: cs =>
    let r := splitOnDash cs
    if c = '-' then [] :: r
    else
      match r with
      | [] => [[c]]
      | g :: gs => (c :: g) :: gs

/-- Parse a nonempty all-digit character list as a natural number. -/
def natOfDigits (cs : List Char) : Option ℕ :=
  if cs ≠ [] ∧ cs.all Char.isDigit then
    some (cs.foldl (fun n c => 10 * n + (c.toNat - 48)) 0)
  else none

/-- Month abbreviation (case-insensitive, as strptime %b) to month
number. -/
def monthIndex (cs : List Char) : Option ℕ :=
  let t := cs.map Char.toLower
  if t = ['j', 'a', 'n'] then some 1
  else if t = ['f', 'e', 'b'] then some 2
  else if t = ['m', 'a', 'r'] then some 3
  else if t = ['a', 'p', 'r'] then some 4
  else if t = ['m', 'a', 'y'] then some 5
  else if t = ['j', 'u', 'n'] then some 6
  else if t = ['j', 'u', 'l'] then some 7
  else if t = ['a', 'u', 'g'] then some 8
  else if t = ['s', 'e', 'p'] then some 9
  else if t = ['o', 'c', 't'] then some 10
  else if t = ['n', 'o', 'v'] then some 11
  else if t = ['d', 'e', 'c'] then some 12
  else none

/-- Gregorian leap year test. -/
def isLeap (y : ℕ) : Bool := (y % 4 == 0 && y % 100 != 0) || (y % 400 == 0)

/-- Days in a month of a given year. -/
def daysInMonth (m y : ℕ) : ℕ :=
  if m = 2 then (if isLeap y then 29 else 28)
  else if m = 4 ∨ m = 6 ∨ m = 9 ∨ m = 11 then 30
  else 31

/-- pd.to_datetime with format %d-%b-%Y and errors=coerce: a strict
two-part-dash date, day of one or two digits valid for the month, month
abbreviation, four-digit year; anything else becomes missing (NaT),
never an error.  A parsed date is (year, month, day). -/
def parseDate (s : String) : Option (ℕ × ℕ × ℕ) :=
  match splitOnDash s.toList with
  | [d, m, y] =>
    match natOfDigits d, monthIndex m, natOfDigits y with
    | some dv, some mv, some yv =>
      if 1 ≤ d.length ∧ d.length ≤ 2 ∧ y.length = 4 ∧ 1 ≤ dv ∧
          dv ≤ daysInMonth mv yv
      then some (yv, mv, dv) else none
    | _, _, _ => none
  | _ => none

/-- df_plot (line 60): dropna on ClosePrice only, keeping the frame in
its processing (descending-date) order.  Rows whose date fails to parse
are retained. -/
def plotRows (es : List Enriched) : List Enriched :=
  es.filter (fun e => !(F.isNan e.close))

/-- A chart row: the coerced date (none when unparseable, as NaT), the
close price, and the remark used to pick marker overlays. -/
structure PlotRow where
  pdate : Option (ℕ × ℕ × ℕ)
  close : F
  remarks : String
deriving DecidableEq

/-- The chart input frame: df_plot after the to_datetime coercion. -/
def chartRows (es : List Enriched) : List PlotRow :=
  (plotRows es).map (fun e => ⟨parseDate e.date, e.close, e.remarks⟩)

/-- One step of the recursive EMA with smoothing factor a. -/
def ewmStep (a : Q) (prev c : F) : F :=
  F.add (F.mul c (F.val a)) (F.mul prev (F.val (1 - a)))

/-- Tail of the recursive EMA from a previous smoothed value. -/
def ewmFrom (a : Q) (prev : F) : List F → List F
  | [] => []
  | c :: cs =>
    let e := ewmStep a prev c
    e :: ewmFrom a e cs

/-- Series.ewm(span, adjust=False).mean(): the recursive EMA with
smoothing factor 2 / (span + 1), seeded with the first value. -/
def ewmMean (span : Q) (xs : List F) : List F :=
  match xs with
  | [] => []
  | c :: cs => c :: ewmFrom (2 / (span + 1)) c cs

/-- Modelled from the spec: the standard recursive EMA with explicit
smoothing factor a and no bias adjustment — ema 0 = close 0 and
ema i = close i * a + ema (i - 1) * (1 - a).  Stated separately so the
code-side ewmMean can be compared against the wording of the spec. -/
def emaSpecFrom (a : Q) (prev : F) : List F → List F
  | [] => []
  | c :: cs =>
    let e := F.add (F.mul c (F.val a)) (F.mul prev (F.val (1 - a)))
    e :: emaSpecFrom a e cs

/-- Modelled from the spec: full EMA sequence of the spec recursion. -/
def emaSpec (a : Q) : List F → List F
  | [] => []
  | c :: cs => c :: emaSpecFrom a c cs

/-- The 30EMA column values of the chart (line 62). -/
def emaVals (es : List Enriched) : List F :=
  ewmMean 30 ((plotRows es).map (fun e => e.close))

/-- The close-price line series: date and close pairs. -/
def closeSeries (es : List Enriched) : List (Option (ℕ × ℕ × ℕ) × F) :=
  (chartRows es).map (fun p => (p.pdate, p.close))

/-- The EMA line series: date and EMA pairs. -/
def emaSeries (es : List Enriched) : List (Option (ℕ × ℕ × ℕ) × F) :=
  ((chartRows es).map (fun p => p.pdate)).zip (emaVals es)

/-- The remark labels given a scatter overlay (the colors dict keys). -/
def chartLabels : List String := ["JACKPOT", "ACC(G-LZ)", "BR(G-HZ)"]

/-- The scatter overlay for one remark label: the date and close points
of the chart rows whose remark matches. -/
def scatterSeries (es : List Enriched) (label : String) :
    List (Option (ℕ × ℕ × ℕ) × F) :=
  ((chartRows es).filter (fun p => p.remarks == label)).map
    (fun p => (p.pdate, p.close))

/-- One row of the display table (line 81 column projection). -/
structure ReportRow where
  symbol : String
  date : String
  chngACT : F
  chngDEL : F
  remarks : String
  close : F
  change : F
  dly : F
deriving DecidableEq

/-- Fallback report row for out-of-range access. -/
def defaultReportRow : ReportRow :=
  { symbol := "", date := "", chngACT := F.nan, chngDEL := F.nan,
    remarks := "NA", close := F.nan, change := F.nan, dly := F.nan }

/-- Project an enriched row to the display columns. -/
def projectRow (e : Enriched) : ReportRow :=
  { symbol := e.symbol, date := e.date, chngACT := e.chngACT,
    chngDEL := e.chngDEL, remarks := e.remarks, close := e.close,
    change := e.change, dly := e.dly }

/-- The display table: head(50) of the enriched frame, projected. -/
def reportRows (es : List Enriched) : List ReportRow :=
  (es.take 50).map projectRow

/-- The columns the background gradient (color-intensity hint) is
attached to. -/
def gradientCols : List String :=
  ["%chngACT", "%chngDEL", "%DlyQttoTradedQty"]

/-- A sample cleaned record with fixed volume and delivery fields. -/
def sampleRecord (d : String) (c : Q) : Record :=
  { symbol := "TCS", series := "EQ", date := d, close := F.val c,
    ttq := F.val 1000, trades := F.val 10, dly := F.val 50 }

/-- The worked example of the spec: close prices 100, 102, 99, 105 with
the newest record first (descending date order). -/
def batchB4 : List Record :=
  [sampleRecord "04-Jan-2024" 100, sampleRecord "03-Jan-2024" 102,
   sampleRecord "02-Jan-2024" 99, sampleRecord "01-Jan-2024" 105]

/-- A two-day batch, newest first: close 100 on 02-Jan, 200 on 01-Jan. -/
def batchB2 : List Record :=
  [sampleRecord "02-Jan-2024" 100, sampleRecord "01-Jan-2024" 200]

/-- A record whose close price is known but whose date string does not
parse. -/
def badDateRecord : Record :=
  { symbol := "TCS", series := "EQ", date := "notadate", close := F.val 100,
    ttq := F.val 1000, trades := F.val 10, dly := F.val 50 }

/-- A record with a known close and every other numeric field unknown. -/
def goodRec : Record :=
  { symbol := "TCS", series := "EQ", date := "GOOD", close := F.val 100,
    ttq := F.nan, trades := F.nan, dly := F.nan }

/-- A record with an unknown close and a distinguishing date string. -/
def badRec : Record :=
  { symbol := "TCS", series := "EQ", date := "BAD", close := F.nan,
    ttq := F.nan, trades := F.nan, dly := F.nan }

/-- A 51-record batch (newest first) whose oldest record, at position 50,
has an unknown close price. -/
def batch51 : List Record := List.replicate 50 goodRec ++ [badRec]

/-- A two-record batch whose newest record has an unknown close price. -/
def batchNan : List Record :=
  [{ symbol := "TCS", series := "EQ", date := "02-Jan-2024", close := F.nan,
     ttq := F.val 1000, trades := F.val 10, dly := F.val 50 },
   sampleRecord "01-Jan-2024" 105]

/-
Helper lemmas about the scalar layer.
-/

theorem Q.blt_irr (a : Q) : Q.blt a a = false := by
  simp [Q.blt]

theorem Q.blt_asymmetric (a b : Q) (h : Q.blt a b = true) : Q.blt b a = false := by
  simp only [Q.blt, decide_eq_true_eq, decide_eq_false_iff_not, not_lt] at h ⊢
  exact le_of_lt h

theorem F.lt_nan_left (y : F) : F.lt F.nan y = false := by cases y <;> rfl

theorem F.lt_nan_right (x : F) : F.lt x F.nan = false := by cases x <;> rfl

theorem F.lt_irr (x : F) : F.lt x x = false := by
  cases x <;> simp [F.lt, Q.blt_irr]

theorem F.lt_asymmetric (x y : F) (h : F.lt x y = true) : F.lt y x = false := by
  cases x <;> cases y <;> simp_all [F.lt]
  exact Q.blt_asymmetric _ _ h

theorem F.lt_cases (x y : F) :
    (F.lt x y = true ∧ F.lt y x = false) ∨ (F.lt x y = false ∧ F.lt y x = true) ∨
    (F.lt x y = false ∧ F.lt y x = false) := by
  cases hxy : F.lt x y <;> cases hyx : F.lt y x
  · exact Or.inr (Or.inr ⟨rfl, rfl⟩)
  · exact Or.inr (Or.inl ⟨rfl, rfl⟩)
  · exact Or.inl ⟨rfl, rfl⟩
  · exact absurd (F.lt_asymmetric x y hxy) (by simp [hyx])

theorem F.sub_nan_left (y : F) : F.sub F.nan y = F.nan := by cases y <;> rfl

theorem F.sub_nan_right (x : F) : F.sub x F.nan = F.nan := by cases x <;> rfl

theorem F.div_nan_left (y : F) : F.div F.nan y = F.nan := by cases y <;> rfl

theorem F.div_nan_right (x : F) : F.div x F.nan = F.nan := by cases x <;> rfl

theorem F.mul_nan_left (y : F) : F.mul F.nan y = F.nan := by cases y <;> rfl

theorem F.round2_nan : F.round2 F.nan = F.nan := rfl

theorem F.round2_inf : F.round2 F.inf = F.inf := rfl

/-
Helper lemmas about list access into the pipeline output.
-/

theorem enrich_length (rs : List Record) : (enrich rs).length = rs.length := by
  simp [enrich]

theorem enrich_getD (rs : List Record) (i : ℕ) (h : i < rs.length)
    (d : Enriched) :
    (enrich rs).getD i d = enrichAt rs (avgActionOf rs) (avgDelOf rs) i := by
  unfold enrich
  rw [List.getD_eq_getElem?_getD, List.getElem?_map, List.getElem?_range h]
  rfl

theorem reportRows_getD (es : List Enriched) (i : ℕ) (hi : i < es.length)
    (h50 : i < 50) :
    (reportRows es).getD i defaultReportRow
      = projectRow (es.getD i defaultEnriched) := by
  unfold reportRows
  rw [List.getD_eq_getElem?_getD, List.getElem?_map,
    List.getElem?_take_of_lt h50, List.getElem?_eq_getElem hi,
    List.getD_eq_getElem?_getD, List.getElem?_eq_getElem hi]
  rfl

theorem filter_of_map {α β : Type} (f : α → β) (p : β → Bool) (l : List α) :
    (l.map f).filter p = (l.filter (fun a => p (f a))).map f := by
  induction l with
  | nil => rfl
  | cons a l ih =>
    by_cases h : p (f a) = true
    · simp [List.filter, h, ih]
    · simp [List.filter, List.map, h, ih]

/-
Claim theorems.
-/

/-- Characterization of the classifier outcomes by the two comparisons
each label requires. -/
theorem remarkOf_characterization (dly avgD act avgA : F) :
    (remarkOf dly avgD act avgA = "ACC(G-LZ)" ↔
      F.lt avgD dly = true ∧ F.lt act avgA = true) ∧
    (remarkOf dly avgD act avgA = "BR(G-HZ)" ↔
      F.lt dly avgD = true ∧ F.lt avgA act = true) ∧
    (remarkOf dly avgD act avgA = "JACKPOT" ↔
      F.lt avgD dly = true ∧ F.lt avgA act = true) := by
  rcases F.lt_cases avgD dly with ⟨h1, h2⟩ | ⟨h1, h2⟩ | ⟨h1, h2⟩ <;>
    rcases F.lt_cases act avgA with ⟨h3, h4⟩ | ⟨h3, h4⟩ | ⟨h3, h4⟩ <;>
      simp [remarkOf, F.gt, h1, h2, h3, h4]

/-- C1: per record, the remark follows the fixed priority rule: ACC(G-LZ)
when delivery is above average and action below, BR(G-HZ) when delivery
is below average and action above, JACKPOT when both are above, NA in
every other case; exactly one of the four labels is produced, all
comparisons are strict, and an unknown operand or an exact tie with the
batch average yields NA.  The final conjunct ties the classifier to the
remark column the pipeline computes. -/
theorem remark_rule (dly avgD act avgA : F) (rs : List Record) (i : ℕ)
    (h : i < rs.length) :
    remarkOf dly avgD act avgA ∈ ["ACC(G-LZ)", "BR(G-HZ)", "JACKPOT", "NA"] ∧
    (remarkOf dly avgD act avgA = "ACC(G-LZ)" ↔
      F.gt dly avgD = true ∧ F.lt act avgA = true) ∧
    (remarkOf dly avgD act avgA = "BR(G-HZ)" ↔
      F.lt dly avgD = true ∧ F.gt act avgA = true) ∧
    (remarkOf dly avgD act avgA = "JACKPOT" ↔
      F.gt dly avgD = true ∧ F.gt act avgA = true) ∧
    ((dly = F.nan ∨ avgD = F.nan ∨ act = F.nan ∨ avgA = F.nan) →
      remarkOf dly avgD act avgA = "NA") ∧
    ((dly = avgD ∨ act = avgA) → remarkOf dly avgD act avgA = "NA") ∧
    ((enrich rs).getD i defaultEnriched).remarks
      = remarkOf ((rs.getD i defaultRecord).dly) (avgDelOf rs)
          (actionOf (rs.getD i defaultRecord)) (avgActionOf rs) := by
  have hc := remarkOf_characterization dly avgD act avgA
  refine ⟨?_, hc.1, hc.2.1, hc.2.2, ?_, ?_, ?_⟩
  · unfold remarkOf
    split_ifs <;> simp
  · intro hnan
    rcases hnan with hh | hh | hh | hh <;> subst hh <;>
      simp [remarkOf, F.gt, F.lt_nan_left, F.lt_nan_right]
  · intro heq
    rcases heq with hh | hh <;> subst hh <;>
      simp [remarkOf, F.gt, F.lt_irr]
  · rw [enrich_getD rs i h]
    rfl

/-- C1 witness: the spec example (delivery 60 over average 50, action 80
under average 90) classifies as ACC(G-LZ), and an unknown delivery value
forces NA; both derived from the classification theorem at concrete
inputs. -/
theorem remark_rule_witness :
    remarkOf (F.val 60) (F.val 50) (F.val 80) (F.val 90) = "ACC(G-LZ)" ∧
    remarkOf F.nan (F.val 50) (F.val 80) (F.val 90) = "NA" :=
  ⟨(remark_rule (F.val 60) (F.val 50) (F.val 80) (F.val 90) batchB4 0
      (by decide)).2.1.mpr (by decide),
   (remark_rule F.nan (F.val 50) (F.val 80) (F.val 90) batchB4 0
      (by decide)).2.2.2.2.1 (Or.inl rfl)⟩

/-- C9: the fourth guard of np.select (delivery below average and action
below average, mapped to NA) is redundant: a classifier with only the
first three guards and the NA default agrees with the implemented
four-guard classifier on every input. -/
theorem remark_fourth_guard_redundant (dly avgD act avgA : F) :
    remark3 dly avgD act avgA = remarkOf dly avgD act avgA := by
  unfold remark3 remarkOf
  split_ifs <;> rfl

/-- C2 counterexample: on the worked example of the spec (closes 100,
102, 99, 105, newest first) the code gives the 100-row, which is the
newest record, an unknown inverse change, not 2.00: ClosePrice.shift(1)
moves values toward older rows, so row 0 has no prior value.  The full
%iCHANGE column is evaluated to exhibit the actual values. -/
theorem inverse_change_spec_counterexample :
    (enrich batchB4).map (fun e => e.iCHANGE)
      = [F.nan, F.val (-49 / 25), F.val (303 / 100), F.val (-571 / 100)] ∧
    F.nan ≠ F.val 2 := by decide

/-- C2 amended: SHIFT at row i of the descending sequence is the close of
the record immediately preceding i (the chronologically next day), unknown
for the newest record (row 0), and %iCHANGE is (SHIFT - close) / close
times 100, rounded to 2 decimals. -/
theorem prior_close_is_preceding (rs : List Record) (i : ℕ)
    (h : i < rs.length) :
    ((enrich rs).getD i defaultEnriched).shift
      = (if i = 0 then F.nan else (rs.getD (i - 1) defaultRecord).close) ∧
    ((enrich rs).getD i defaultEnriched).iCHANGE
      = F.round2 (F.mul (F.div
          (F.sub (((enrich rs).getD i defaultEnriched).shift)
            ((rs.getD i defaultRecord).close))
          ((rs.getD i defaultRecord).close)) (F.val 100)) := by
  rw [enrich_getD rs i h]
  exact ⟨rfl, rfl⟩

/-- C2 witness: on the worked example, row 0 (the newest) has unknown
SHIFT and row 1 takes the close of row 0, by the amended theorem. -/
theorem prior_close_is_preceding_witness :
    ((enrich batchB4).getD 0 defaultEnriched).shift = F.nan ∧
    ((enrich batchB4).getD 1 defaultEnriched).shift = F.val 100 := by
  constructor
  · rw [(prior_close_is_preceding batchB4 0 (by decide)).1]
    decide
  · rw [(prior_close_is_preceding batchB4 1 (by decide)).1]
    decide

/-- C3 counterexample: %CHANGE is defined (not blank) for the newest
record — on the worked example it is -1.96 — and %CHANGE of row 1 is the
%iCHANGE of row 2, not of row 0 (whose %iCHANGE is unknown). -/
theorem forward_change_spec_counterexample :
    ((enrich batchB4).getD 0 defaultEnriched).change = F.val (-49 / 25) ∧
    F.val (-49 / 25) ≠ F.nan ∧
    ((enrich batchB4).getD 1 defaultEnriched).change = F.val (303 / 100) ∧
    ((enrich batchB4).getD 0 defaultEnriched).iCHANGE = F.nan := by decide

/-- C3 amended: %CHANGE at row i is the rounded %iCHANGE of row i + 1
(one position later in the descending sequence, the chronologically
previous day) and is unknown for the oldest record, the last row. -/
theorem forward_change_is_next_row (rs : List Record) (i : ℕ)
    (h : i < rs.length) :
    (i + 1 < rs.length →
      ((enrich rs).getD i defaultEnriched).change
        = F.round2 (((enrich rs).getD (i + 1) defaultEnriched).iCHANGE)) ∧
    (rs.length = i + 1 →
      ((enrich rs).getD i defaultEnriched).change = F.nan) := by
  constructor
  · intro h2
    rw [enrich_getD rs i h, enrich_getD rs (i + 1) h2]
    rfl
  · intro hlen
    rw [enrich_getD rs i h]
    show F.round2 (iChangeAt rs (i + 1)) = F.nan
    have hout : rs.getD (i + 1) defaultRecord = defaultRecord := by
      rw [List.getD_eq_getElem?_getD, List.getElem?_eq_none (by omega)]
      rfl
    have hnan : closeAt rs (i + 1) = F.nan := by
      unfold closeAt
      rw [hout]
      rfl
    unfold iChangeAt
    rw [hnan, F.sub_nan_right, F.div_nan_left, F.mul_nan_left, F.round2_nan,
      F.round2_nan]

/-- C3 witness: on the worked example the oldest record (row 3) has
unknown %CHANGE, by the amended theorem. -/
theorem forward_change_is_next_row_witness :
    ((enrich batchB4).getD 3 defaultEnriched).change = F.nan :=
  (forward_change_is_next_row batchB4 3 (by decide)).2 (by decide)

/-- C4 counterexample: zero trades with a positive traded quantity make
ACTION plus-infinity, not unknown — float division of a nonzero value by
zero yields inf, which is not a missing value. -/
theorem action_zero_divisor_counterexample :
    actionOf { symbol := "TCS", series := "EQ", date := "01-Jan-2024",
               close := F.val 10, ttq := F.val 1000000, trades := F.val 0,
               dly := F.val 50 } = F.inf ∧ F.inf ≠ F.nan := by decide

/-- C4 amended: ACTION is unknown when the trade count or quantity is
unknown, or when a zero quantity is divided by zero trades; a positive
quantity over zero trades is plus-infinity rather than unknown; otherwise
ACTION is the exact ratio rounded to 2 decimals.  A ratio with an unknown
divisor is always unknown, and every case is a total computation (nothing
raises). -/
theorem action_division_rules (r : Record) (x : F) :
    (r.trades = F.nan → actionOf r = F.nan) ∧
    (r.ttq = F.nan → actionOf r = F.nan) ∧
    (∀ a b : Q, r.ttq = F.val a → r.trades = F.val b → b.num ≠ 0 →
      actionOf r = F.round2 (F.val (a / b))) ∧
    (∀ a b : Q, r.ttq = F.val a → r.trades = F.val b → b.num = 0 →
      0 < a.num → actionOf r = F.inf) ∧
    (∀ a b : Q, r.ttq = F.val a → r.trades = F.val b → b.num = 0 →
      a.num = 0 → actionOf r = F.nan) ∧
    F.div x F.nan = F.nan := by
  refine ⟨?_, ?_, ?_, ?_, ?_, F.div_nan_right x⟩
  · intro h
    unfold actionOf
    rw [h, F.div_nan_right, F.round2_nan]
  · intro h
    unfold actionOf
    rw [h, F.div_nan_left, F.round2_nan]
  · intro a b ha hb hnz
    unfold actionOf
    rw [ha, hb]
    simp [F.div, hnz]
  · intro a b ha hb hbz hpos
    unfold actionOf
    rw [ha, hb]
    simp [F.div, hbz, hpos, F.round2_inf]
  · intro a b ha hb hbz haz
    unfold actionOf
    rw [ha, hb]
    simp [F.div, hbz, haz, F.round2_nan]

/-- C4 witness: the spec example 1000000 quantity over 10000 trades gives
ACTION 100.00, via the amended theorem at a concrete record. -/
theorem action_division_rules_witness :
    actionOf { symbol := "TCS", series := "EQ", date := "01-Jan-2024",
               close := F.val 10, ttq := F.val 1000000,
               trades := F.val 10000, dly := F.val 50 }
      = F.round2 (F.val (1000000 / 10000)) ∧
    F.round2 (F.val (1000000 / 10000)) = F.val 100 :=
  ⟨(action_division_rules _ F.nan).2.2.1 1000000 10000 rfl rfl (by decide),
   by decide⟩

/-- Auxiliary: the code-side recursive EMA tail coincides with the
spec-side recursion at the same smoothing factor. -/
theorem ewmFrom_eq_emaSpecFrom (a : Q) (p : F) (xs : List F) :
    ewmFrom a p xs = emaSpecFrom a p xs := by
  induction xs generalizing p with
  | nil => rfl
  | cons c cs ih => simp [ewmFrom, emaSpecFrom, ewmStep, ih]

/-- C5 counterexample: on a two-day batch (newest first, closes 100 then
200) the EMA series the code computes starts at 100, the newest plotted
close, and differs from the spec recursion applied to the
ascending-by-date close sequence 200, 100, which would start at the
oldest close 200 — df_plot is never re-sorted ascending. -/
theorem ema_ascending_counterexample :
    emaVals (enrich batchB2) = [F.val 100, F.val (3300 / 31)] ∧
    emaSpec (2 / 31) [F.val 200, F.val 100]
      = [F.val 200, F.val (6000 / 31)] ∧
    emaVals (enrich batchB2) ≠ emaSpec (2 / 31) [F.val 200, F.val 100] := by
  decide

/-- C5 amended: the 30EMA is the standard recursive EMA with smoothing
factor 2/31 and no bias adjustment, but taken over the plotted closes in
the processing (descending, newest-first) order, so its first value is
the newest plotted close. -/
theorem ema_descending_spec_recursion (es : List Enriched) :
    emaVals es = emaSpec (2 / 31) ((plotRows es).map (fun e => e.close)) ∧
    (emaVals es).head? = ((plotRows es).map (fun e => e.close)).head? := by
  have key : emaVals es
      = emaSpec (2 / 31) ((plotRows es).map (fun e => e.close)) := by
    unfold emaVals ewmMean
    cases hxs : (plotRows es).map (fun e => e.close) with
    | nil => rfl
    | cons c cs =>
      show c :: ewmFrom (2 / (30 + 1)) c cs = emaSpec (2 / 31) (c :: cs)
      have ha : (2 : Q) / (30 + 1) = 2 / 31 := by decide
      rw [ha, ewmFrom_eq_emaSpecFrom]
      rfl
  refine ⟨key, ?_⟩
  rw [key]
  cases (plotRows es).map (fun e => e.close) with
  | nil => rfl
  | cons c cs => rfl

/-- C6 counterexample: a record with a known close price but an
unparseable date string is retained in the chart input (with an unknown
date), not excluded from it. -/
theorem chart_unparseable_date_counterexample :
    parseDate "notadate" = none ∧
    chartRows (enrich [badDateRecord])
      = [{ pdate := none, close := F.val 100, remarks := "NA" }] := by
  decide

/-- C6 amended: the chart input excludes exactly the records lacking a
close price (records with unparseable dates are retained, with the date
missing); there is one scatter overlay per label in JACKPOT, ACC(G-LZ),
BR(G-HZ), holding precisely the date and close points of plotted records
whose remark matches, and NA is not one of the marker labels. -/
theorem chart_series_characterization (es : List Enriched) :
    (∀ e : Enriched, e ∈ plotRows es ↔ e ∈ es ∧ F.isNan e.close = false) ∧
    (∀ L : String, scatterSeries es L
      = ((plotRows es).filter (fun e => e.remarks == L)).map
          (fun e => (parseDate e.date, e.close))) ∧
    chartLabels = ["JACKPOT", "ACC(G-LZ)", "BR(G-HZ)"] ∧
    "NA" ∉ chartLabels := by
  refine ⟨?_, ?_, rfl, by decide⟩
  · intro e
    simp [plotRows, List.mem_filter]
  · intro L
    unfold scatterSeries chartRows
    rw [filter_of_map, List.map_map]
    rfl

/-- C6 witness: the scatter characterization applied to the JACKPOT
overlay of a concrete batch. -/
theorem chart_series_characterization_witness :
    scatterSeries (enrich batchB4) "JACKPOT"
      = ((plotRows (enrich batchB4)).filter
          (fun e => e.remarks == "JACKPOT")).map
          (fun e => (parseDate e.date, e.close)) :=
  (chart_series_characterization (enrich batchB4)).2.1 "JACKPOT"

/-- C7: the report is the head(50) of the enriched sequence (so exactly
min(50, n) rows, most recent first given the descending input order),
projected to the display columns, and the color-intensity gradient is
attached to the three percentage columns. -/
theorem report_shape (es : List Enriched) :
    reportRows es = (es.take 50).map projectRow ∧
    (reportRows es).length = min 50 es.length ∧
    gradientCols = ["%chngACT", "%chngDEL", "%DlyQttoTradedQty"] := by
  refine ⟨rfl, ?_, rfl⟩
  simp [reportRows]

/-- C8: an empty raw batch flows through the whole pipeline (every stage
is a total function) and produces an empty enriched frame, an empty
report, and empty chart series, with the batch averages unknown. -/
theorem empty_batch_runs_to_empty :
    enrich [] = [] ∧ reportRows (enrich []) = [] ∧
    plotRows (enrich []) = [] ∧ chartRows (enrich []) = [] ∧
    closeSeries (enrich []) = [] ∧ emaVals (enrich []) = [] ∧
    emaSeries (enrich []) = [] ∧
    (∀ L : String, scatterSeries (enrich []) L = []) ∧
    avgActionOf [] = F.nan ∧ avgDelOf [] = F.nan :=
  ⟨rfl, rfl, rfl, rfl, rfl, rfl, rfl, fun _ => rfl, rfl, rfl⟩

/-- C10 counterexample: in a 51-record batch whose record at position 50
has an unknown close, that record appears in no report row (the report
keeps only the first 50 rows), so an unknown-close record does not always
occupy a report row. -/
theorem unknown_close_beyond_report_counterexample :
    (batch51.getD 50 defaultRecord).close = F.nan ∧
    (batch51.getD 50 defaultRecord).date = "BAD" ∧
    (enrich batch51).length = 51 ∧
    (reportRows (enrich batch51)).length = 50 ∧
    (reportRows (enrich batch51)).all (fun row => !(row.date == "BAD"))
      = true := by
  decide

/-- C10 amended: a record with unknown close is excluded from the chart
input (hence from every chart series), is retained at its position in the
enriched sequence, and, when it is among the 50 most recent records, its
report row shows close and %CHANGE as unknown. -/
theorem unknown_close_chart_vs_report (rs : List Record) (i : ℕ)
    (h : i < rs.length) (hc : (rs.getD i defaultRecord).close = F.nan) :
    (∀ e : Enriched, e ∈ plotRows (enrich rs) → F.isNan e.close = false) ∧
    (enrich rs).length = rs.length ∧
    ((enrich rs).getD i defaultEnriched).close = F.nan ∧
    (i < 50 →
      ((reportRows (enrich rs)).getD i defaultReportRow).close = F.nan ∧
      ((reportRows (enrich rs)).getD i defaultReportRow).change = F.nan) := by
  refine ⟨?_, enrich_length rs, ?_, ?_⟩
  · intro e he
    simp [plotRows, List.mem_filter] at he
    exact he.2
  · rw [enrich_getD rs i h]
    exact hc
  · intro h50
    have hi : i < (enrich rs).length := by
      rw [enrich_length]
      exact h
    rw [reportRows_getD (enrich rs) i hi h50, enrich_getD rs i h]
    constructor
    · exact hc
    show F.round2 (iChangeAt rs (i + 1)) = F.nan
    have hs : shiftAt rs (i + 1) = F.nan := by
      unfold shiftAt closeAt
      rw [if_neg (Nat.succ_ne_zero i), Nat.add_sub_cancel]
      exact hc
    unfold iChangeAt
    rw [hs, F.sub_nan_left, F.div_nan_left, F.mul_nan_left, F.round2_nan,
      F.round2_nan]

/-- C10 witness: in a two-record batch whose newest record has unknown
close, that report row shows unknown close and unknown %CHANGE, by the
amended theorem. -/
theorem unknown_close_chart_vs_report_witness :
    ((reportRows (enrich batchNan)).getD 0 defaultReportRow).close = F.nan ∧
    ((reportRows (enrich batchNan)).getD 0 defaultReportRow).change
      = F.nan :=
  (unknown_close_chart_vs_report batchNan 0 (by decide) (by decide)).2.2.2
    (by decide)

end StockAnalyzer
